import Mathlib

/-!
Shallow embedding of `lalamove/certificate-init-container` (`src/main.go`).

The program is a single `main` function plus four pure helper functions
(`defaultDNSNames`, `serviceDomainName`, `podDomainName`,
`podHeadlessDomainName`).  The embedding below translates:

* the pure helpers directly as Lean functions on `String`
  (Go's `strings.Split` / `strings.Replace` with their single-character
  separators are implemented as `goSplit` / `replaceDots` over `List Char`);
* `main`'s sequential control flow (lines 81-348) as the function `run`,
  which produces the ordered list of observable effects (`Event`) together
  with the way the process terminates (`Outcome`);
* the external library and control-plane calls (Kubernetes client, RSA key
  generation, PKCS#8 conversion, `net.ParseIP`, file writes, secret and
  CSR API responses, the service-account CA file) as an oracle record
  `World`: these are collaborators outside this repository, so only their
  success/failure and returned data are modelled, exactly at the program
  points where `main` consults them;
* the two unbounded retry loops (the secret preflight loop at lines 99-119
  and the approval poll loop at lines 294-318) as fuel-indexed recursions
  (`preflight`, `pollLoop`); running out of fuel yields the distinguished
  outcome `Outcome.outOfFuel`, so statements about nontermination are
  phrased as: for every fuel bound the loop has not yet returned.

Go byte slices are modelled as `String`.
-/

/-- One entry of Go's `strings.Split` on a single-character separator:
`cur` is the (reversed) chunk being accumulated. -/
def splitCharAux (sep : Char) : List Char → List Char → List (List Char)
  | cur, [] => [cur.reverse]
  | cur, c :: cs =>
    if c = sep then cur.reverse :: splitCharAux sep [] cs
    else splitCharAux sep (c :: cur) cs

/-- Go `strings.Split(s, sep)` for a single-character separator (the program
only splits on `","` and `"="`).  In particular `goSplit "" ',' = [""]`,
matching Go. -/
def goSplit (s : String) (sep : Char) : List String :=
  (splitCharAux sep [] s.data).map (fun l => String.mk l)

/-- Go `strings.Replace(ip, ".", "-", -1)` (src/main.go line 369): every dot
becomes a dash. -/
def replaceDots (s : String) : String :=
  String.mk (s.data.map (fun c => if c = '.' then '-' else c))

/-- src/main.go lines 368-370. -/
def podDomainName (ip namespace_ domain : String) : String :=
  replaceDots ip ++ "." ++ namespace_ ++ ".pod." ++ domain

/-- src/main.go lines 364-366. -/
def serviceDomainName (name namespace_ domain : String) : String :=
  name ++ "." ++ namespace_ ++ ".svc." ++ domain

/-- src/main.go lines 372-377. -/
def podHeadlessDomainName (hostname subdomain namespace_ domain : String) : String :=
  if hostname = "" ∨ subdomain = "" then ""
  else hostname ++ "." ++ subdomain ++ "." ++ namespace_ ++ ".svc." ++ domain

/-- src/main.go lines 351-362.  The Go function reads the package-level flag
variable `headlessNameAsCN`; here it is the first parameter. -/
def defaultDNSNames (headlessNameAsCN : Bool)
    (ip hostname subdomain namespace_ clusterDomain : String) : List String :=
  let ns := [podDomainName ip namespace_ clusterDomain]
  if hostname ≠ "" ∧ subdomain ≠ "" then
    let headlessName := podHeadlessDomainName hostname subdomain namespace_ clusterDomain
    if headlessNameAsCN then headlessName :: ns else ns ++ [headlessName]
  else ns

/-- The command-line flag values (src/main.go lines 61-78), immutable for the
whole run. -/
structure Config where
  additionalDNSNames : String
  certDir : String
  clusterDomain : String
  headlessNameAsCN : Bool
  hostname : String
  namespace_ : String
  pkcs8Format : Bool
  podIP : String
  podName : String
  serviceIPs : String
  serviceNames : String
  subdomain : String
  labels : String
  secretName : String
  keysize : Nat
  countries : String
  organizations : String
  organizationalUnits : String
  deriving Repr, DecidableEq

/-- The metadata of a Kubernetes secret object that the program never
touches (it only ever assigns `secret.StringData`, line 343). -/
structure ObjectMeta where
  name : String
  namespace_ : String
  deriving Repr, DecidableEq

/-- A Kubernetes `apiv1.Secret` as far as the program observes and mutates
it: `data` is the byte-valued map inspected by the preflight gate
(line 106), `stringData` the field overwritten before `UpdateSecret`
(line 343), `type_` a stand-in for every further field left untouched. -/
structure Secret where
  metadata : ObjectMeta
  data : List (String × String)
  stringData : List (String × String)
  type_ : String
  deriving Repr, DecidableEq

/-- One condition on a CertificateSigningRequest status (line 303 reads
`Conditions[0].Type`). -/
structure CSRCondition where
  condType : String
  deriving Repr, DecidableEq

/-- The part of a fetched CertificateSigningRequest the poll loop inspects
(lines 302-305): the condition list and the certificate bytes. -/
structure CSRStatus where
  conditions : List CSRCondition
  certificate : String
  deriving Repr, DecidableEq

/-- A fetched CertificateSigningRequest object. -/
structure CSRObject where
  status : CSRStatus
  deriving Repr, DecidableEq

/-- The observable effects of a run, in program order. -/
inductive Event where
  | getSecret
  | sleep (seconds : Nat)
  | keyGen
  | writeFile (path : String)
  | csrDelete (name : String)
  | csrGet (name : String)
  | csrCreate (name : String)
  | updateSecret (s : Secret)
  deriving Repr, DecidableEq

/-- How the process terminates: `log.Fatal*` (nonzero exit), a Go `panic`
(the PKCS#8 conversion at line 135, the labels index at line 164, the CA
bundle read at line 335), `os.Exit(0)`, or fuel exhaustion of the model. -/
inductive Outcome where
  | fatal (msg : String)
  | panicked
  | exit0
  | outOfFuel
  deriving Repr, DecidableEq

/-- True iff the event is a call on the certificate-signing-request API. -/
def Event.isCSRCall : Event → Bool
  | .csrDelete _ => true
  | .csrGet _ => true
  | .csrCreate _ => true
  | _ => false

/-- The oracle for everything outside this repository that `main` calls:
library primitives and control-plane responses.  `ipValid s` models
`net.ParseIP(s)` succeeding (the combined `To4`/`To16` nil test of
lines 176 and 187); `secretResp k` is the response to the k-th
`GetSecret` call; `csrGetPre` is whether the presence-check
`GetCertificateSigningRequest` at line 282 succeeds; `pollResp k` is the
response to the k-th fetch inside the poll loop (`none` = error);
`caCrtFile` is the content of the service-account `ca.crt` file
(`none` = read error, which the program turns into a panic). -/
structure World where
  clientOk : Bool
  secretResp : Nat → Option Secret
  keyGenOk : Bool
  pkcs8Ok : Bool
  pemKeyBytes : String
  writeOk : String → Bool
  ipValid : String → Bool
  csrSignOk : Bool
  csrBytes : String
  csrGetPre : Bool
  csrCreateOk : Bool
  pollResp : Nat → Option CSRObject
  caCrtFile : Option String

/-- src/main.go lines 159-169: build the labels map from the comma-separated
`-labels` flag.  Go reads `s[0]` and `s[1]` of `strings.Split(n, "=")`;
when a non-empty entry contains no `=`, `s[1]` is an out-of-range index
and the process panics, modelled by `none`. -/
def parseLabelEntries : List String → Option (List (String × String))
  | [] => some []
  | n :: rest =>
    if n = "" then parseLabelEntries rest
    else
      match goSplit n '=' with
      | [] => none
      | [_] => none
      | label :: key :: _ =>
        if label = "" then parseLabelEntries rest
        else (parseLabelEntries rest).map (fun m => (label, key) :: m)

/-- The labels map of src/main.go lines 157-169 (`none` = runtime panic on a
non-empty entry without `=`). -/
def parseLabels (labels : String) : Option (List (String × String)) :=
  parseLabelEntries (goSplit labels ',')

/-- src/main.go lines 182-191: validate each non-empty service-IP literal in
order, accumulating the parsed addresses; the first invalid literal is the
fatal error `"invalid service IP address"`. -/
def validateServiceIPs (ipValid : String → Bool) :
    List String → List String → Except String (List String)
  | acc, [] => .ok acc.reverse
  | acc, s :: rest =>
    if s = "" then validateServiceIPs ipValid acc rest
    else if ipValid s then validateServiceIPs ipValid (s :: acc) rest
    else .error "invalid service IP address"

/-- src/main.go lines 175-191: the pod IP is validated first
(fatal `"invalid pod IP address"`), then each non-empty entry of the
comma-separated service-IP list. -/
def gatherIPs (ipValid : String → Bool) (podIP serviceIPs : String) :
    Except String (List String) :=
  if ipValid podIP = false then .error "invalid pod IP address"
  else validateServiceIPs ipValid [podIP] (goSplit serviceIPs ',')

/-- The non-empty entries of a comma-separated flag (the
`if n == "" continue` pattern of lines 205-217). -/
def splitNonEmpty (s : String) : List String :=
  (goSplit s ',').filter (fun n => n ≠ "")

/-- src/main.go lines 203-217: the full SAN DNS list — the default names,
then the additional DNS names verbatim, then one service domain name per
service name. -/
def buildDNSNames (cfg : Config) : List String :=
  defaultDNSNames cfg.headlessNameAsCN cfg.podIP cfg.hostname cfg.subdomain
      cfg.namespace_ cfg.clusterDomain
  ++ splitNonEmpty cfg.additionalDNSNames
  ++ (splitNonEmpty cfg.serviceNames).map
      (fun n => serviceDomainName n cfg.namespace_ cfg.clusterDomain)

/-- src/main.go lines 226-234: a subject list field is split from its flag
only when the flag is non-empty, and stays nil otherwise. -/
def subjectField (s : String) : List String :=
  if s.length > 0 then goSplit s ',' else []

/-- The `x509.CertificateRequest` template of src/main.go lines 236-246. -/
structure CertificateRequestTemplate where
  commonName : String
  country : List String
  organization : List String
  organizationalUnit : List String
  dnsNames : List String
  ipAddresses : List String
  deriving Repr, DecidableEq

/-- src/main.go lines 236-246: `CommonName` is `dnsNames[0]` (the list is
never empty because `defaultDNSNames` always yields the pod domain name). -/
def buildCertificateRequestTemplate (cfg : Config) (dnsNames : List String)
    (ips : List String) : CertificateRequestTemplate :=
  { commonName := dnsNames.getD 0 ""
    country := subjectField cfg.countries
    organization := subjectField cfg.organizations
    organizationalUnit := subjectField cfg.organizationalUnits
    dnsNames := dnsNames
    ipAddresses := ips }

/-- The three keys the preflight gate requires (src/main.go line 107). -/
def requiredFiles : List String := ["tls.key", "tls.crt", "ca.crt"]

/-- Result of the preflight loop: stop the whole run (exit 0, or fuel ran
out), or proceed with the fetched, incomplete secret. -/
inductive PreflightResult where
  | stop (out : Outcome)
  | found (s : Secret)
  deriving Repr, DecidableEq

/-- src/main.go lines 99-119: fetch the secret; on error sleep 5 seconds and
retry; once fetched, exit 0 when all of `tls.key`, `tls.crt`, `ca.crt` are
present in its data (presence only — values are not inspected), else hand
the secret to the rest of the run. -/
def preflight (resp : Nat → Option Secret) (i : Nat) : Nat → List Event × PreflightResult
  | 0 => ([], .stop .outOfFuel)
  | fuel + 1 =>
    match resp i with
    | none =>
      let r := preflight resp (i + 1) fuel
      (.getSecret :: .sleep 5 :: r.1, r.2)
    | some ks =>
      if requiredFiles.all (fun f => (ks.data.lookup f).isSome) then
        ([.getSecret], .stop .exit0)
      else
        ([.getSecret], .found ks)

/-- Result of the submit phase: proceed to the poll loop, or die on a
creation error. -/
inductive SubmitResult where
  | proceedToPoll
  | fatalCreate
  deriving Repr, DecidableEq

/-- src/main.go lines 278-291: unconditionally delete the request of the
deterministic name, then fetch it; a successful fetch goes straight to
polling, a failed fetch triggers a single create whose failure is fatal. -/
def submitPhase (name : String) (getOk createOk : Bool) : List Event × SubmitResult :=
  if getOk then ([.csrDelete name, .csrGet name], .proceedToPoll)
  else if createOk then ([.csrDelete name, .csrGet name, .csrCreate name], .proceedToPoll)
  else ([.csrDelete name, .csrGet name, .csrCreate name], .fatalCreate)

/-- One iteration of the poll loop body (src/main.go lines 295-315): the
fetch succeeded, its condition list is non-empty, the first condition's
type is `"Approved"`, and `len(certificate) > 1` — then and only then the
loop breaks with the certificate bytes. -/
def pollAttempt (r : Option CSRObject) : Option String :=
  match r with
  | none => none
  | some csr =>
    match csr.status.conditions with
    | [] => none
    | c :: _ =>
      if c.condType = "Approved" then
        if csr.status.certificate.length > 1 then some csr.status.certificate
        else none
      else none

/-- src/main.go lines 293-318: fetch, test `pollAttempt`, and on failure
sleep 5 seconds and retry, without any bound on the attempt count (the
fuel is the model's observation horizon, not a bound in the program). -/
def pollLoop (name : String) (resps : Nat → Option CSRObject) (i : Nat) :
    Nat → List Event × Option String
  | 0 => ([], none)
  | fuel + 1 =>
    match pollAttempt (resps i) with
    | some cert => ([.csrGet name], some cert)
    | none =>
      let r := pollLoop name resps (i + 1) fuel
      (.csrGet name :: .sleep 5 :: r.1, r.2)

/-- src/main.go lines 338-343: build the string data and assign it to the
`StringData` field of the secret retained by the preflight gate; every
other field is left as fetched. -/
def storeCredentials (secret : Secret) (pemKeyBytes certificate k8sCrt : String) : Secret :=
  { secret with
    stringData := [("tls.key", pemKeyBytes), ("tls.crt", certificate), ("ca.crt", k8sCrt)] }

/-- src/main.go lines 121-348: everything after the preflight gate.
`certDir` is the defaulted directory, `secretOpt` the secret retained by
the gate (`none` in filesystem mode). -/
def runAfterPreflight (cfg : Config) (w : World) (fuel : Nat) (certDir : String)
    (secretOpt : Option Secret) : List Event × Outcome :=
  -- lines 124-127: RSA key generation
  if w.keyGenOk = false then ([.keyGen], .fatal "unable to genarate the private key")
  -- lines 131-136: PKCS#8 conversion panics on error
  else if cfg.pkcs8Format ∧ w.pkcs8Ok = false then ([.keyGen], .panicked)
  else
    -- lines 147-154: in filesystem mode the PEM key is written to disk
    let keyPath := certDir ++ "/tls.key"
    let keyTr : List Event :=
      if cfg.secretName = "" then [.keyGen, .writeFile keyPath] else [.keyGen]
    if cfg.secretName = "" ∧ w.writeOk keyPath = false then
      (keyTr, .fatal ("unable to write to " ++ keyPath))
    else
      -- lines 157-169: labels map (panic on an entry without an equals sign)
      match parseLabels cfg.labels with
      | none => (keyTr, .panicked)
      | some _ =>
        -- lines 175-191: IP SAN gathering
        match gatherIPs w.ipValid cfg.podIP cfg.serviceIPs with
        | .error msg => (keyTr, .fatal msg)
        | .ok ips =>
          let dnsNames := buildDNSNames cfg
          let _tmpl := buildCertificateRequestTemplate cfg dnsNames ips
          -- lines 248-251: signing the certificate request
          if w.csrSignOk = false then
            (keyTr, .fatal "unable to generate the certificate request")
          else
            let csrPath := certDir ++ "/tls.csr"
            let csrTr :=
              if cfg.secretName = "" then keyTr ++ [.writeFile csrPath] else keyTr
            if cfg.secretName = "" ∧ w.writeOk csrPath = false then
              (csrTr, .fatal ("unable to " ++ csrPath))
            else
              -- lines 278-291: delete, presence check, conditional create
              let csrName := cfg.podName ++ "-" ++ cfg.namespace_
              match submitPhase csrName w.csrGetPre w.csrCreateOk with
              | (str, .fatalCreate) =>
                (csrTr ++ str, .fatal "unable to create the certificate signing request")
              | (str, .proceedToPoll) =>
                -- lines 293-318: the approval poll loop
                match pollLoop csrName w.pollResp 0 fuel with
                | (ptr, none) => (csrTr ++ str ++ ptr, .outOfFuel)
                | (ptr, some certificate) =>
                  -- lines 320-326: in filesystem mode write the certificate
                  let crtPath := certDir ++ "/tls.crt"
                  let crtTr :=
                    if cfg.secretName = "" then [Event.writeFile crtPath] else []
                  if cfg.secretName = "" ∧ w.writeOk crtPath = false then
                    (csrTr ++ str ++ ptr ++ crtTr, .fatal ("unable to write to " ++ crtPath))
                  else
                    -- lines 328-329: final cleanup delete
                    let delTr := [Event.csrDelete csrName]
                    match secretOpt with
                    | none => (csrTr ++ str ++ ptr ++ crtTr ++ delTr, .exit0)
                    | some s =>
                      -- lines 332-346: read the CA bundle (panic on error),
                      -- set StringData, update the secret (the update's
                      -- error is never checked by the program)
                      match w.caCrtFile with
                      | none => (csrTr ++ str ++ ptr ++ crtTr ++ delTr, .panicked)
                      | some k8sCrt =>
                        let s2 := storeCredentials s w.pemKeyBytes certificate k8sCrt
                        (csrTr ++ str ++ ptr ++ crtTr ++ delTr ++ [Event.updateSecret s2],
                          .exit0)

/-- src/main.go lines 81-348: the whole run after flag parsing.  The trace
lists the observable effects in order; the outcome is how the process
ends. -/
def run (cfg : Config) (w : World) (fuel : Nat) : List Event × Outcome :=
  -- lines 83-86: client construction
  if w.clientOk = false then ([], .fatal "unable to create a Kubernetes client")
  -- lines 88-90: the two sinks are mutually exclusive
  else if cfg.certDir ≠ "" ∧ cfg.secretName ≠ "" then
    ([], .fatal "-cert-dir and -secret-name does not make sense together")
  else
    -- lines 92-94: default directory
    let certDir := if cfg.certDir = "" then "/etc/tls" else cfg.certDir
    -- lines 96-120: preflight gate, only in secret mode
    if cfg.secretName = "" then runAfterPreflight cfg w fuel certDir none
    else
      match preflight w.secretResp 0 fuel with
      | (tr, .stop out) => (tr, out)
      | (tr, .found ks) =>
        let r := runAfterPreflight cfg w fuel certDir (some ks)
        (tr ++ r.1, r.2)

/-- A baseline flag configuration for concrete executions: filesystem mode,
valid pod IP, no optional names. -/
def cfgBase : Config :=
  { additionalDNSNames := "", certDir := "", clusterDomain := "cluster.local",
    headlessNameAsCN := false, hostname := "", namespace_ := "default",
    pkcs8Format := false, podIP := "10.1.2.3", podName := "app", serviceIPs := "",
    serviceNames := "", subdomain := "", labels := "", secretName := "",
    keysize := 2048, countries := "", organizations := "", organizationalUnits := "" }

/-- The baseline configuration with an empty (hence unparsable) pod IP
literal: `net.ParseIP("")` returns nil. -/
def cfgMalformedIP : Config := { cfgBase with podIP := "" }

/-- Secret-store mode over the baseline configuration. -/
def cfgSecretMode : Config := { cfgBase with secretName := "creds" }

/-- Both sinks selected at once. -/
def cfgBothSinks : Config := { cfgBase with certDir := "/etc/tls", secretName := "creds" }

/-- A stateful-set style configuration with hostname and subdomain set and
the headless name promoted to Common Name. -/
def cfgHeadless : Config :=
  { cfgBase with hostname := "web-0", subdomain := "web", headlessNameAsCN := true }

/-- A benign oracle: every library call succeeds, the IP parser accepts
every non-empty literal (`net.ParseIP("")` fails), the CSR presence check
fails (request not found), and the poll fetch always errors. -/
def wBase : World :=
  { clientOk := true, secretResp := fun _ => none, keyGenOk := true, pkcs8Ok := true,
    pemKeyBytes := "PEMKEY", writeOk := fun _ => true,
    ipValid := fun s => !(s == ""), csrSignOk := true, csrBytes := "CSRPEM",
    csrGetPre := false, csrCreateOk := true, pollResp := fun _ => none,
    caCrtFile := some "CABUNDLE" }

/-- A fetched signing request that is approved and carries a certificate of
length greater than one. -/
def approvedCSR : CSRObject := ⟨⟨[⟨"Approved"⟩], "CERTBYTES"⟩⟩

/-- The benign oracle whose poll fetches immediately return the approved
request. -/
def wApproved : World := { wBase with pollResp := fun _ => some approvedCSR }

/-- A secret whose data holds all three required keys with non-empty
values. -/
def secretFull : Secret :=
  ⟨⟨"creds", "default"⟩, [("tls.key", "K"), ("tls.crt", "C"), ("ca.crt", "A")], [], "Opaque"⟩

/-- A secret whose data holds all three required keys, each mapped to the
empty byte string. -/
def secretEmptyVals : Secret :=
  ⟨⟨"creds", "default"⟩, [("tls.key", ""), ("tls.crt", ""), ("ca.crt", "")], [], "Opaque"⟩

/-- The approving oracle whose secret fetches return `secretFull`. -/
def wSecretFull : World := { wApproved with secretResp := fun _ => some secretFull }

/-- The approving oracle whose secret fetches return `secretEmptyVals`. -/
def wSecretEmptyVals : World := { wApproved with secretResp := fun _ => some secretEmptyVals }

/-- Membership in a join of replicated two-element blocks. -/
theorem mem_join_replicate_pair {α : Type} {a b x : α} {n : Nat}
    (h : x ∈ List.flatten (List.replicate n [a, b])) : x = a ∨ x = b := by
  rw [List.mem_flatten] at h
  obtain ⟨l, hl, hx⟩ := h
  rw [List.eq_of_mem_replicate hl] at hx
  simpa using hx

/-- The poll loop, started anywhere, returns the certificate of the first
satisfying response, after one `csrGet`-and-sleep round per failing
response before it. -/
theorem pollLoop_success (name : String) (resps : Nat → Option CSRObject) :
    ∀ n i fuel c, (∀ k, k < n → pollAttempt (resps (i + k)) = none) →
      pollAttempt (resps (i + n)) = some c → n < fuel →
      pollLoop name resps i fuel =
        (List.flatten (List.replicate n [.csrGet name, .sleep 5]) ++ [.csrGet name], some c) := by
  intro n
  induction n with
  | zero =>
    intro i fuel c _ hhit hfuel
    obtain ⟨f, rfl⟩ := Nat.exists_eq_succ_of_ne_zero (Nat.pos_iff_ne_zero.mp hfuel)
    simp only [pollLoop]
    rw [show i + 0 = i from rfl] at hhit
    rw [hhit]
    simp
  | succ m ih =>
    intro i fuel c hmiss hhit hfuel
    obtain ⟨f, rfl⟩ := Nat.exists_eq_succ_of_ne_zero
      (Nat.pos_iff_ne_zero.mp (Nat.lt_of_le_of_lt (Nat.zero_le _) hfuel))
    have h0 : pollAttempt (resps i) = none := by
      have := hmiss 0 (Nat.succ_pos m)
      simpa using this
    simp only [pollLoop, h0]
    have hrec := ih (i + 1) f c
      (by intro k hk
          have := hmiss (k + 1) (Nat.succ_lt_succ hk)
          simpa [Nat.add_assoc, Nat.add_comm 1 k] using this)
      (by have := hhit
          simpa [Nat.add_assoc, Nat.add_comm 1 m] using this)
      (Nat.lt_of_succ_lt_succ hfuel)
    rw [hrec]
    simp [List.replicate_succ]

/-- Within any horizon in which no response satisfies the success test, the
poll loop has returned nothing and has slept once per attempt. -/
theorem pollLoop_stuck (name : String) (resps : Nat → Option CSRObject) :
    ∀ fuel i, (∀ k, k < fuel → pollAttempt (resps (i + k)) = none) →
      pollLoop name resps i fuel =
        (List.flatten (List.replicate fuel [.csrGet name, .sleep 5]), none) := by
  intro fuel
  induction fuel with
  | zero => intro i _; simp [pollLoop]
  | succ f ih =>
    intro i hmiss
    have h0 : pollAttempt (resps i) = none := by
      have := hmiss 0 (Nat.succ_pos f)
      simpa using this
    simp only [pollLoop, h0]
    have hrec := ih (i + 1)
      (by intro k hk
          have := hmiss (k + 1) (Nat.succ_lt_succ hk)
          simpa [Nat.add_assoc, Nat.add_comm 1 k] using this)
    rw [hrec]
    simp [List.replicate_succ]

/-- The poll loop returns only certificates produced by a satisfying
response. -/
theorem pollLoop_sound (name : String) (resps : Nat → Option CSRObject) :
    ∀ fuel i c, (pollLoop name resps i fuel).2 = some c →
      ∃ m, pollAttempt (resps m) = some c := by
  intro fuel
  induction fuel with
  | zero => intro i c h; simp [pollLoop] at h
  | succ f ih =>
    intro i c h
    simp only [pollLoop] at h
    cases hatt : pollAttempt (resps i) with
    | some cert =>
      rw [hatt] at h
      simp at h
      exact ⟨i, by rw [hatt, h]⟩
    | none =>
      rw [hatt] at h
      simp at h
      exact ih (i + 1) c h

/-- The preflight loop, started anywhere: the first successful fetch decides
the result — exit 0 when all three required keys are present in the
secret's data, otherwise the secret is retained — after one
fetch-and-sleep round per failed fetch before it. -/
theorem preflight_first_hit (resp : Nat → Option Secret) :
    ∀ n i fuel s, (∀ k, k < n → resp (i + k) = none) → resp (i + n) = some s →
      n < fuel →
      preflight resp i fuel =
        (List.flatten (List.replicate n [.getSecret, .sleep 5]) ++ [.getSecret],
          if requiredFiles.all (fun f => (s.data.lookup f).isSome) then .stop .exit0
          else .found s) := by
  intro n
  induction n with
  | zero =>
    intro i fuel s _ hhit hfuel
    obtain ⟨f, rfl⟩ := Nat.exists_eq_succ_of_ne_zero (Nat.pos_iff_ne_zero.mp hfuel)
    simp only [preflight]
    rw [show i + 0 = i from rfl] at hhit
    rw [hhit]
    by_cases hall : requiredFiles.all (fun f => (s.data.lookup f).isSome)
    · simp [hall]
    · simp [hall]
  | succ m ih =>
    intro i fuel s hmiss hhit hfuel
    obtain ⟨f, rfl⟩ := Nat.exists_eq_succ_of_ne_zero
      (Nat.pos_iff_ne_zero.mp (Nat.lt_of_le_of_lt (Nat.zero_le _) hfuel))
    have h0 : resp i = none := by
      have := hmiss 0 (Nat.succ_pos m)
      simpa using this
    simp only [preflight, h0]
    have hrec := ih (i + 1) f s
      (by intro k hk
          have := hmiss (k + 1) (Nat.succ_lt_succ hk)
          simpa [Nat.add_assoc, Nat.add_comm 1 k] using this)
      (by have := hhit
          simpa [Nat.add_assoc, Nat.add_comm 1 m] using this)
      (Nat.lt_of_succ_lt_succ hfuel)
    rw [hrec]
    simp [List.replicate_succ]

/-- The only error the service-IP validation loop can raise. -/
theorem validateServiceIPs_error (v : String → Bool) :
    ∀ l acc msg, validateServiceIPs v acc l = .error msg →
      msg = "invalid service IP address" := by
  intro l
  induction l with
  | nil => intro acc msg h; simp [validateServiceIPs] at h
  | cons s rest ih =>
    intro acc msg h
    by_cases hs : s = ""
    · rw [validateServiceIPs, if_pos hs] at h
      exact ih acc msg h
    · rw [validateServiceIPs, if_neg hs] at h
      by_cases hv : v s
      · rw [if_pos hv] at h
        exact ih (s :: acc) msg h
      · rw [if_neg hv] at h
        simpa using h.symm

/-- Every error out of the IP-gathering phase is one of the two fatal
IP-parse diagnostics of src/main.go lines 177 and 188. -/
theorem gatherIPs_error (v : String → Bool) (p s msg : String)
    (h : gatherIPs v p s = .error msg) :
    msg = "invalid pod IP address" ∨ msg = "invalid service IP address" := by
  rw [gatherIPs] at h
  by_cases hp : v p = false
  · rw [if_pos hp] at h
    left
    simpa using h.symm
  · rw [if_neg hp] at h
    right
    exact validateServiceIPs_error v _ _ _ h

/-- Label parsing succeeds when every processed entry splits on `=` into at
least two pieces. -/
theorem parseLabelEntries_isSome :
    ∀ es : List String, (∀ e ∈ es, e ≠ "" → 2 ≤ (goSplit e '=').length) →
      (parseLabelEntries es).isSome = true := by
  intro es
  induction es with
  | nil => intro _; simp [parseLabelEntries]
  | cons e rest ih =>
    intro h
    have hrest := ih (fun x hx => h x (List.mem_cons_of_mem e hx))
    by_cases he : e = ""
    · rw [parseLabelEntries, if_pos he]
      exact hrest
    · rw [parseLabelEntries, if_neg he]
      have hlen := h e (List.mem_cons_self e rest) he
      match hsplit : goSplit e '=' with
      | [] => rw [hsplit] at hlen; simp at hlen
      | [x] => rw [hsplit] at hlen; simp at hlen
      | label :: key :: tail =>
        dsimp only
        by_cases hl : label = ""
        · rw [if_pos hl]; exact hrest
        · rw [if_neg hl]
          simpa [Option.isSome_map] using hrest

/-- Label parsing dies whenever some non-empty entry splits on `=` into a
single piece (the out-of-range `s[1]` of src/main.go line 164). -/
theorem parseLabelEntries_none :
    ∀ es : List String, (∃ e ∈ es, e ≠ "" ∧ (goSplit e '=').length = 1) →
      parseLabelEntries es = none := by
  intro es
  induction es with
  | nil => intro h; simp at h
  | cons e rest ih =>
    intro h
    obtain ⟨x, hx, hxne, hxlen⟩ := h
    rcases List.mem_cons.mp hx with rfl | hxr
    · rw [parseLabelEntries, if_neg hxne]
      match hsplit : goSplit x '=' with
      | [] => rfl
      | [y] => rfl
      | a :: b :: t => rw [hsplit] at hxlen; simp at hxlen
    · have hrest := ih ⟨x, hxr, hxne, hxlen⟩
      by_cases he : e = ""
      · rw [parseLabelEntries, if_pos he]; exact hrest
      · rw [parseLabelEntries, if_neg he]
        match goSplit e '=' with
        | [] => rfl
        | [y] => rfl
        | a :: b :: t =>
          dsimp only
          by_cases hl : a = ""
          · rw [if_pos hl]; exact hrest
          · rw [if_neg hl, hrest]; rfl

/-- Claim C6: for every pod IP, namespace and cluster domain the pod domain
name is the IP with dots replaced by dashes followed by
`.{namespace}.pod.{clusterDomain}`, and for every service name the
service domain name is `{name}.{namespace}.svc.{clusterDomain}`; in
particular `10.1.2.3`/`default`/`cluster.local` yields
`10-1-2-3.default.pod.cluster.local` and `web`/`default`/`cluster.local`
yields `web.default.svc.cluster.local` (src/main.go lines 364-370). -/
theorem claimC6_domain_names :
    (∀ ip namespace_ domain, podDomainName ip namespace_ domain
        = replaceDots ip ++ "." ++ namespace_ ++ ".pod." ++ domain)
    ∧ (∀ name namespace_ domain, serviceDomainName name namespace_ domain
        = name ++ "." ++ namespace_ ++ ".svc." ++ domain)
    ∧ podDomainName "10.1.2.3" "default" "cluster.local"
        = "10-1-2-3.default.pod.cluster.local"
    ∧ serviceDomainName "web" "default" "cluster.local"
        = "web.default.svc.cluster.local" :=
  ⟨fun _ _ _ => rfl, fun _ _ _ => rfl, by decide, by decide⟩

/-- Claim C10: the secret-store update assigns the `StringData` field of the
retained secret to exactly the three entries `tls.key`, `tls.crt`,
`ca.crt`, and leaves every other field of the secret (metadata, existing
data map, type) exactly as fetched (src/main.go lines 332-346). -/
theorem claimC10_update_frame (s : Secret) (pemKeyBytes certificate k8sCrt : String) :
    (storeCredentials s pemKeyBytes certificate k8sCrt).stringData
      = [("tls.key", pemKeyBytes), ("tls.crt", certificate), ("ca.crt", k8sCrt)]
    ∧ (storeCredentials s pemKeyBytes certificate k8sCrt).metadata = s.metadata
    ∧ (storeCredentials s pemKeyBytes certificate k8sCrt).data = s.data
    ∧ (storeCredentials s pemKeyBytes certificate k8sCrt).type_ = s.type_ :=
  ⟨rfl, rfl, rfl, rfl⟩

/-- Claim C2: the signing-request client's start sequence always begins by
deleting, then fetching the request of the deterministic name; a
successful fetch proceeds straight to polling with no create at all,
while a failed fetch leads to exactly one create, whose failure is fatal
and not retried (src/main.go lines 278-291). -/
theorem claimC2_submit_sequence (name : String) (getOk createOk : Bool) :
    ((submitPhase name getOk createOk).1.take 2 = [.csrDelete name, .csrGet name])
    ∧ (getOk = true →
        submitPhase name getOk createOk
          = ([.csrDelete name, .csrGet name], .proceedToPoll))
    ∧ ((submitPhase name getOk createOk).1.count (.csrCreate name)
        = if getOk then 0 else 1)
    ∧ (getOk = false → createOk = false →
        (submitPhase name getOk createOk).2 = .fatalCreate) := by
  cases getOk <;> cases createOk <;>
    simp [submitPhase, List.count_cons, List.count_nil]

/-- Claim C2 witness: with the request already present (fetch succeeds), the
client deletes, fetches, and proceeds without creating; with the fetch
failing and the create failing, it dies after a single create. -/
theorem claimC2_submit_sequence_witness :
    submitPhase "app-default" true true
      = ([.csrDelete "app-default", .csrGet "app-default"], .proceedToPoll)
    ∧ (submitPhase "app-default" false false).1.count (.csrCreate "app-default") = 1
    ∧ (submitPhase "app-default" false false).2 = .fatalCreate := by
  refine ⟨(claimC2_submit_sequence "app-default" true true).2.1 rfl, ?_, ?_⟩
  · have h := (claimC2_submit_sequence "app-default" false false).2.2.1
    simpa using h
  · exact (claimC2_submit_sequence "app-default" false false).2.2.2 rfl rfl

/-- Claim C8: label parsing is safe exactly when every non-empty
comma-separated entry contains an `=`: if every non-empty entry splits on
`=` into at least two pieces the parse succeeds; if some non-empty entry
splits into a single piece (no `=`), the access of index 1 at src/main.go
line 164 is out of bounds and the parse dies; the concrete input `"foo"`
exhibits the crash. -/
theorem claimC8_labels_safety :
    (∀ l : String, (∀ e ∈ goSplit l ',', e ≠ "" → 2 ≤ (goSplit e '=').length) →
        (parseLabels l).isSome = true)
    ∧ (∀ l : String, (∃ e ∈ goSplit l ',', e ≠ "" ∧ (goSplit e '=').length = 1) →
        parseLabels l = none)
    ∧ parseLabels "foo" = none :=
  ⟨fun _ h => parseLabelEntries_isSome _ h,
   fun _ h => parseLabelEntries_none _ h,
   by decide⟩

/-- Claim C8 witness: a well-formed labels flag parses, and the non-empty
entry `"foo"` without `=` crashes the parser. -/
theorem claimC8_labels_safety_witness :
    (parseLabels "app=web,tier=frontend").isSome = true
    ∧ parseLabels "foo" = none :=
  ⟨claimC8_labels_safety.1 "app=web,tier=frontend" (by decide),
   claimC8_labels_safety.2.2⟩

/-- Claim C3: the poll loop returns certificate bytes exactly when a fetched
request passes `pollAttempt` — the fetch succeeded, the condition list is
non-empty, the first condition's type is `"Approved"`, and the
certificate payload is longer than one byte; the first such response (the
n-th) is returned after n retries, each preceded by a fixed 5-second
sleep; within any horizon in which no response passes, the loop has
returned nothing and slept 5 seconds per attempt — there is no bound on
the attempt count; and whatever the loop returns came from a passing
response (src/main.go lines 293-318). -/
theorem claimC3_poll_loop (name : String) (resps : Nat → Option CSRObject)
    (n : Nat) (c : String)
    (hmiss : ∀ k, k < n → pollAttempt (resps k) = none)
    (hhit : pollAttempt (resps n) = some c) :
    (∀ fuel, n < fuel →
        pollLoop name resps 0 fuel =
          (List.flatten (List.replicate n [.csrGet name, .sleep 5]) ++ [.csrGet name],
            some c))
    ∧ (∀ fuel, fuel ≤ n →
        pollLoop name resps 0 fuel =
          (List.flatten (List.replicate fuel [.csrGet name, .sleep 5]), none))
    ∧ (∀ fuel c', (pollLoop name resps 0 fuel).2 = some c' →
        ∃ m, pollAttempt (resps m) = some c') := by
  refine ⟨?_, ?_, ?_⟩
  · intro fuel hfuel
    exact pollLoop_success name resps n 0 fuel c
      (by intro k hk; simpa using hmiss k hk) (by simpa using hhit) hfuel
  · intro fuel hfuel
    exact pollLoop_stuck name resps fuel 0
      (by intro k hk
          exact (by simpa using hmiss k (Nat.lt_of_lt_of_le hk hfuel)))
  · intro fuel c' h
    exact pollLoop_sound name resps fuel 0 c' h

/-- Claim C3 witness: with every fetch returning an approved request bearing
a nine-byte certificate, the loop returns it at once; with the same first
response failing, zero fuel yields nothing. -/
theorem claimC3_poll_loop_witness :
    (∀ k, k < 0 → pollAttempt ((fun _ => some approvedCSR) k) = none)
    ∧ pollAttempt ((fun _ => some approvedCSR) 0) = some "CERTBYTES"
    ∧ pollLoop "app-default" (fun _ => some approvedCSR) 0 1
        = ([.csrGet "app-default"], some "CERTBYTES") := by
  have h := claimC3_poll_loop "app-default" (fun _ => some approvedCSR) 0 "CERTBYTES"
    (fun k hk => absurd hk (Nat.not_lt_zero k)) (by decide)
  refine ⟨fun k hk => absurd hk (Nat.not_lt_zero k), by decide, ?_⟩
  have h1 := h.1 1 (by decide)
  simpa using h1

/-- Claim C7: selecting both delivery targets — a non-empty certificate
output directory and a non-empty secret name — is fatal at src/main.go
lines 88-90, with an empty effect trace: no key is generated and nothing
else is done first. -/
theorem claimC7_both_sinks_fatal (cfg : Config) (w : World) (fuel : Nat)
    (hclient : w.clientOk = true)
    (hdir : cfg.certDir ≠ "") (hsec : cfg.secretName ≠ "") :
    run cfg w fuel
      = ([], .fatal "-cert-dir and -secret-name does not make sense together")
    ∧ Event.keyGen ∉ (run cfg w fuel).1 := by
  have hrun : run cfg w fuel
      = ([], .fatal "-cert-dir and -secret-name does not make sense together") := by
    rw [run, if_neg (by simp [hclient]), if_pos ⟨hdir, hsec⟩]
  exact ⟨hrun, by rw [hrun]; simp⟩

/-- Claim C7 witness: the run with `-cert-dir /etc/tls` and
`-secret-name creds` dies at once with the mutual-exclusion diagnostic. -/
theorem claimC7_both_sinks_fatal_witness :
    run cfgBothSinks wBase 1
      = ([], .fatal "-cert-dir and -secret-name does not make sense together")
    ∧ Event.keyGen ∉ (run cfgBothSinks wBase 1).1 :=
  claimC7_both_sinks_fatal cfgBothSinks wBase 1 rfl (by decide) (by decide)

/-- Claim C4: in secret-store mode, when the (first successful) secret fetch
returns data holding all three of `tls.key`, `tls.crt`, `ca.crt` with
non-empty values, the run exits 0 right after that fetch: the trace is
the failed-fetch retries followed by nothing but the successful
`getSecret` — no key generation, no CSR API call (src/main.go
lines 96-119). -/
theorem claimC4_secret_fastpath (cfg : Config) (w : World) (fuel n : Nat) (s : Secret)
    (hclient : w.clientOk = true)
    (hdir : cfg.certDir = "")
    (hsec : cfg.secretName ≠ "")
    (hmiss : ∀ k, k < n → w.secretResp k = none)
    (hhit : w.secretResp n = some s)
    (hfull : ∀ f ∈ requiredFiles, ∃ v, s.data.lookup f = some v ∧ v ≠ "")
    (hfuel : n < fuel) :
    run cfg w fuel
      = (List.flatten (List.replicate n [.getSecret, .sleep 5]) ++ [.getSecret], .exit0)
    ∧ Event.keyGen ∉ (run cfg w fuel).1
    ∧ ∀ e ∈ (run cfg w fuel).1, e.isCSRCall = false := by
  have hall : requiredFiles.all (fun f => (s.data.lookup f).isSome) = true := by
    rw [List.all_eq_true]
    intro f hf
    obtain ⟨v, hv, _⟩ := hfull f hf
    simp [hv]
  have hpre := preflight_first_hit w.secretResp n 0 fuel s
    (by intro k hk; simpa using hmiss k hk) (by simpa using hhit) hfuel
  rw [hall] at hpre
  simp only [if_true] at hpre
  have hrun : run cfg w fuel
      = (List.flatten (List.replicate n [Event.getSecret, Event.sleep 5])
          ++ [Event.getSecret], .exit0) := by
    simp only [run, hclient, hdir, hpre]
    simp [hsec]
  refine ⟨hrun, ?_, ?_⟩
  · rw [hrun]
    intro hmem
    simp only [List.mem_append] at hmem
    rcases hmem with h1 | h1
    · rcases mem_join_replicate_pair h1 with h | h <;> simp at h
    · simp at h1
  · rw [hrun]
    intro e he
    simp only [List.mem_append] at he
    rcases he with h1 | h1
    · rcases mem_join_replicate_pair h1 with rfl | rfl <;> rfl
    · rw [List.mem_singleton] at h1; rw [h1]; rfl

/-- Claim C4 witness: with the secret fetch immediately returning a secret
holding non-empty `tls.key`, `tls.crt`, `ca.crt`, the run is a single
`getSecret` followed by exit 0. -/
theorem claimC4_secret_fastpath_witness :
    run cfgSecretMode wSecretFull 1 = ([Event.getSecret], .exit0)
    ∧ Event.keyGen ∉ (run cfgSecretMode wSecretFull 1).1 := by
  have h := claimC4_secret_fastpath cfgSecretMode wSecretFull 1 0 secretFull rfl rfl
    (by decide)
    (fun k hk => absurd hk (Nat.not_lt_zero k)) rfl
    (by intro f hf
        simp only [requiredFiles, List.mem_cons, List.not_mem_nil, or_false] at hf
        rcases hf with rfl | rfl | rfl
        · exact ⟨"K", by decide⟩
        · exact ⟨"C", by decide⟩
        · exact ⟨"A", by decide⟩)
    (by decide)
  refine ⟨?_, h.2.1⟩
  have h1 := h.1
  simpa using h1

/-- Claim C9: the preflight gate tests only the presence of the three keys,
never the values: a fetched secret whose data maps `tls.key`, `tls.crt`,
`ca.crt` all to the empty byte string still short-circuits the run to
exit 0, with no key generation and no CSR API call (src/main.go
lines 106-118). -/
theorem claimC9_presence_only (cfg : Config) (w : World) (fuel n : Nat) (s : Secret)
    (hclient : w.clientOk = true)
    (hdir : cfg.certDir = "")
    (hsec : cfg.secretName ≠ "")
    (hmiss : ∀ k, k < n → w.secretResp k = none)
    (hhit : w.secretResp n = some s)
    (hempty : s.data = [("tls.key", ""), ("tls.crt", ""), ("ca.crt", "")])
    (hfuel : n < fuel) :
    run cfg w fuel
      = (List.flatten (List.replicate n [.getSecret, .sleep 5]) ++ [.getSecret], .exit0)
    ∧ Event.keyGen ∉ (run cfg w fuel).1
    ∧ ∀ e ∈ (run cfg w fuel).1, e.isCSRCall = false := by
  have hall : requiredFiles.all (fun f => (s.data.lookup f).isSome) = true := by
    rw [hempty]; decide
  have hpre := preflight_first_hit w.secretResp n 0 fuel s
    (by intro k hk; simpa using hmiss k hk) (by simpa using hhit) hfuel
  rw [hall] at hpre
  simp only [if_true] at hpre
  have hrun : run cfg w fuel
      = (List.flatten (List.replicate n [Event.getSecret, Event.sleep 5])
          ++ [Event.getSecret], .exit0) := by
    simp only [run, hclient, hdir, hpre]
    simp [hsec]
  refine ⟨hrun, ?_, ?_⟩
  · rw [hrun]
    intro hmem
    simp only [List.mem_append] at hmem
    rcases hmem with h1 | h1
    · rcases mem_join_replicate_pair h1 with h | h <;> simp at h
    · simp at h1
  · rw [hrun]
    intro e he
    simp only [List.mem_append] at he
    rcases he with h1 | h1
    · rcases mem_join_replicate_pair h1 with rfl | rfl <;> rfl
    · rw [List.mem_singleton] at h1; rw [h1]; rfl

/-- Claim C9 witness: a secret holding the three keys with all-empty values
still makes the run a single `getSecret` followed by exit 0. -/
theorem claimC9_presence_only_witness :
    run cfgSecretMode wSecretEmptyVals 1 = ([Event.getSecret], .exit0)
    ∧ Event.keyGen ∉ (run cfgSecretMode wSecretEmptyVals 1).1 := by
  have h := claimC9_presence_only cfgSecretMode wSecretEmptyVals 1 0 secretEmptyVals rfl
    rfl (by decide)
    (fun k hk => absurd hk (Nat.not_lt_zero k)) rfl rfl (by decide)
  refine ⟨?_, h.2.1⟩
  have h1 := h.1
  simpa using h1

/-- Claim C5: the SAN DNS list always has length at least one and the
certificate request's Common Name is its index 0; with `headlessNameAsCN`
set and hostname and subdomain non-empty, index 0 is the headless name
and the pod domain name is displaced to index 1 (never dropped); with
`headlessNameAsCN` unset, index 0 is the pod domain name and the headless
name, when derivable, appears later in the list (src/main.go
lines 236-246 and 351-362). -/
theorem claimC5_san_invariants (cfg : Config) (ips : List String) :
    1 ≤ (buildDNSNames cfg).length
    ∧ (buildCertificateRequestTemplate cfg (buildDNSNames cfg) ips).commonName
        = (buildDNSNames cfg).getD 0 ""
    ∧ (cfg.headlessNameAsCN = true → cfg.hostname ≠ "" → cfg.subdomain ≠ "" →
        (buildDNSNames cfg).getD 0 ""
          = podHeadlessDomainName cfg.hostname cfg.subdomain cfg.namespace_
              cfg.clusterDomain
        ∧ (buildDNSNames cfg).getD 1 ""
          = podDomainName cfg.podIP cfg.namespace_ cfg.clusterDomain)
    ∧ (cfg.headlessNameAsCN = false →
        (buildDNSNames cfg).getD 0 ""
          = podDomainName cfg.podIP cfg.namespace_ cfg.clusterDomain
        ∧ (cfg.hostname ≠ "" → cfg.subdomain ≠ "" →
            podHeadlessDomainName cfg.hostname cfg.subdomain cfg.namespace_
                cfg.clusterDomain
              ∈ (buildDNSNames cfg).drop 1)) := by
  refine ⟨?_, rfl, ?_, ?_⟩
  · rw [buildDNSNames]
    have hlen : 1 ≤ (defaultDNSNames cfg.headlessNameAsCN cfg.podIP cfg.hostname
        cfg.subdomain cfg.namespace_ cfg.clusterDomain).length := by
      rw [defaultDNSNames]
      by_cases h : cfg.hostname ≠ "" ∧ cfg.subdomain ≠ ""
      · rw [if_pos h]; cases cfg.headlessNameAsCN <;> simp
      · rw [if_neg h]; simp
    calc 1 ≤ _ := hlen
      _ ≤ _ := by simp [List.length_append, Nat.le_add_right]
  · intro hb hh hs
    have hdef : defaultDNSNames cfg.headlessNameAsCN cfg.podIP cfg.hostname
        cfg.subdomain cfg.namespace_ cfg.clusterDomain
        = [podHeadlessDomainName cfg.hostname cfg.subdomain cfg.namespace_
             cfg.clusterDomain,
           podDomainName cfg.podIP cfg.namespace_ cfg.clusterDomain] := by
      simp [defaultDNSNames, hb, hh, hs]
    have hlist : buildDNSNames cfg
        = podHeadlessDomainName cfg.hostname cfg.subdomain cfg.namespace_
            cfg.clusterDomain
          :: podDomainName cfg.podIP cfg.namespace_ cfg.clusterDomain
          :: (splitNonEmpty cfg.additionalDNSNames
              ++ (splitNonEmpty cfg.serviceNames).map
                  (fun n => serviceDomainName n cfg.namespace_ cfg.clusterDomain)) := by
      rw [buildDNSNames, hdef]
      simp
    rw [hlist]
    exact ⟨rfl, rfl⟩
  · intro hb
    constructor
    · rw [buildDNSNames, defaultDNSNames]
      by_cases h : cfg.hostname ≠ "" ∧ cfg.subdomain ≠ ""
      · rw [if_pos h, hb]
        simp
      · rw [if_neg h]
        simp
    · intro hh hs
      have hdef : defaultDNSNames cfg.headlessNameAsCN cfg.podIP cfg.hostname
          cfg.subdomain cfg.namespace_ cfg.clusterDomain
          = [podDomainName cfg.podIP cfg.namespace_ cfg.clusterDomain,
             podHeadlessDomainName cfg.hostname cfg.subdomain cfg.namespace_
               cfg.clusterDomain] := by
        simp [defaultDNSNames, hb, hh, hs]
      rw [buildDNSNames, hdef]
      simp

/-- Claim C5 witness: with hostname `web-0`, subdomain `web`, namespace
`default`, domain `cluster.local` and `headlessNameAsCN` set, SAN index 0
is `web-0.web.default.svc.cluster.local` and the pod domain name sits at
index 1. -/
theorem claimC5_san_invariants_witness :
    1 ≤ (buildDNSNames cfgHeadless).length
    ∧ (buildDNSNames cfgHeadless).getD 0 ""
        = podHeadlessDomainName "web-0" "web" "default" "cluster.local"
    ∧ (buildDNSNames cfgHeadless).getD 1 ""
        = podDomainName "10.1.2.3" "default" "cluster.local" := by
  have h := claimC5_san_invariants cfgHeadless []
  have h3 := h.2.2.1 rfl (by decide) (by decide)
  exact ⟨h.1, h3.1, h3.2⟩

/-- Claim C1 counterexample: with the unparsable pod-IP literal `""` (and a
benign environment otherwise), the run does abort fatally at the IP
check — but its trace already contains the RSA key generation (and the
private-key file write), refuting "no RSA key is generated ... when an IP
literal is malformed". -/
theorem claimC1_counterexample :
    (run cfgMalformedIP wBase 1).2 = .fatal "invalid pod IP address"
    ∧ Event.keyGen ∈ (run cfgMalformedIP wBase 1).1 := by decide

/-- Every event the preflight loop emits is a secret fetch or a 5-second
sleep — in particular it never generates a key or touches the CSR API. -/
theorem preflight_trace_events (resp : Nat → Option Secret) :
    ∀ fuel i, ∀ e ∈ (preflight resp i fuel).1,
      e = Event.getSecret ∨ e = Event.sleep 5 := by
  intro fuel
  induction fuel with
  | zero => intro i e he; simp [preflight] at he
  | succ f ih =>
    intro i e he
    rw [preflight] at he
    cases hr : resp i with
    | none =>
      rw [hr] at he
      rcases List.mem_cons.mp he with rfl | he1
      · exact Or.inl rfl
      · rcases List.mem_cons.mp he1 with rfl | he2
        · exact Or.inr rfl
        · exact ih (i + 1) e he2
    | some ks =>
      rw [hr] at he
      dsimp only at he
      by_cases hall : requiredFiles.all (fun f => (ks.data.lookup f).isSome)
      · rw [if_pos hall] at he
        rcases List.mem_singleton.mp he with rfl
        exact Or.inl rfl
      · rw [if_neg hall] at he
        rcases List.mem_singleton.mp he with rfl
        exact Or.inl rfl

/-- Claim C1 (amended): if the pod-IP literal or any non-empty service-IP
literal fails to parse, then in every run that reaches the IP
validation — every filesystem-mode run, and every secret-store-mode run
whose preflight gate hands back an incomplete secret (a fully provisioned
secret instead exits 0 at the gate, before the IP check) — the process
aborts fatally with `invalid pod IP address` or
`invalid service IP address` before any certificate-signing-request API
call — no CSR is created, fetched or deleted — but only after the RSA key
has been generated, and in filesystem mode only after the private key has
been written to disk (src/main.go lines 124, 149, 175-191). -/
theorem claimC1_amended_ip_abort (cfg : Config) (w : World) (fuel : Nat) (msg : String)
    (hclient : w.clientOk = true)
    (hkey : w.keyGenOk = true)
    (hpkcs : cfg.pkcs8Format = true → w.pkcs8Ok = true)
    (hwrite : w.writeOk
        ((if cfg.certDir = "" then "/etc/tls" else cfg.certDir) ++ "/tls.key") = true)
    (hlabels : (parseLabels cfg.labels).isSome = true)
    (hbad : gatherIPs w.ipValid cfg.podIP cfg.serviceIPs = .error msg)
    (hmode : cfg.secretName = ""
      ∨ (cfg.certDir = ""
          ∧ ∃ ptr ks, preflight w.secretResp 0 fuel = (ptr, .found ks))) :
    (run cfg w fuel).2 = .fatal msg
    ∧ (msg = "invalid pod IP address" ∨ msg = "invalid service IP address")
    ∧ Event.keyGen ∈ (run cfg w fuel).1
    ∧ (cfg.secretName = "" →
        Event.writeFile
            ((if cfg.certDir = "" then "/etc/tls" else cfg.certDir) ++ "/tls.key")
          ∈ (run cfg w fuel).1)
    ∧ ∀ e ∈ (run cfg w fuel).1, e.isCSRCall = false := by
  obtain ⟨lm, hlm⟩ := Option.isSome_iff_exists.mp hlabels
  have hp8 : ¬(cfg.pkcs8Format = true ∧ w.pkcs8Ok = false) := by
    rintro ⟨h1, h2⟩
    rw [hpkcs h1] at h2
    exact Bool.noConfusion h2
  by_cases hfs : cfg.secretName = ""
  · -- filesystem mode: the trace is key generation then the key write
    have hrun : run cfg w fuel
        = ([Event.keyGen,
            Event.writeFile
              ((if cfg.certDir = "" then "/etc/tls" else cfg.certDir) ++ "/tls.key")],
           .fatal msg) := by
      simp only [run, runAfterPreflight, hclient, hfs, hkey, hlm, hbad, hwrite, hp8]
      simp
    refine ⟨by rw [hrun], gatherIPs_error w.ipValid _ _ _ hbad, by rw [hrun]; simp,
      fun _ => by rw [hrun]; simp, ?_⟩
    rw [hrun]
    intro e he
    rcases List.mem_cons.mp he with rfl | h1
    · rfl
    · rw [List.mem_singleton] at h1; rw [h1]; rfl
  · -- secret-store mode: the preflight gate returned an incomplete secret,
    -- and the trace is its fetch/sleep rounds followed by key generation
    rcases hmode with hmode | ⟨hdir, ptr, ks, hpre⟩
    · exact absurd hmode hfs
    have hra : runAfterPreflight cfg w fuel "/etc/tls" (some ks)
        = ([Event.keyGen], .fatal msg) := by
      simp only [runAfterPreflight, hkey, hlm, hbad, hp8]
      simp [hfs]
    have hrun : run cfg w fuel = (ptr ++ [Event.keyGen], .fatal msg) := by
      simp only [run, hclient, hdir, hpre, hfs]
      simp [hra]
    have hptr : ∀ e ∈ ptr, e = Event.getSecret ∨ e = Event.sleep 5 := by
      intro e he
      have := preflight_trace_events w.secretResp fuel 0 e
      rw [hpre] at this
      exact this he
    refine ⟨by rw [hrun], gatherIPs_error w.ipValid _ _ _ hbad, ?_,
      fun h => absurd h hfs, ?_⟩
    · rw [hrun]
      simp
    · rw [hrun]
      intro e he
      rcases List.mem_append.mp he with h1 | h1
      · rcases hptr e h1 with rfl | rfl <;> rfl
      · rw [List.mem_singleton] at h1; rw [h1]; rfl

/-- Claim C1 (amended) witness: the concrete filesystem-mode
malformed-pod-IP run aborts with `invalid pod IP address`, has generated
the key and written it to disk, and never touched the CSR API. -/
theorem claimC1_amended_ip_abort_witness :
    (run cfgMalformedIP wBase 1).2 = .fatal "invalid pod IP address"
    ∧ ("invalid pod IP address" = "invalid pod IP address"
        ∨ ("invalid pod IP address" : String) = "invalid service IP address")
    ∧ Event.keyGen ∈ (run cfgMalformedIP wBase 1).1
    ∧ (cfgMalformedIP.secretName = "" →
        Event.writeFile
            ((if cfgMalformedIP.certDir = "" then "/etc/tls" else cfgMalformedIP.certDir)
              ++ "/tls.key")
          ∈ (run cfgMalformedIP wBase 1).1)
    ∧ ∀ e ∈ (run cfgMalformedIP wBase 1).1, e.isCSRCall = false := by
  have h := claimC1_amended_ip_abort cfgMalformedIP wBase 1 "invalid pod IP address"
    rfl rfl (by decide) (by decide) (by decide) rfl (Or.inl rfl)
  exact h
